import Mathlib

/-!
Verification development for the JSON/JSONL to columnar-table converter
(source file `src/alekya.py`).

The embedding models the data path of the converter:

* `JValue` is the type of decoded JSON values, as produced by the host
  language JSON decoder (`json.load` / `json.loads`).  Numbers are
  modelled as arbitrary-precision integers, matching the integer
  fragment of JSON; fractional and exponent literals are outside the
  modelled fragment (none of the verified properties depend on them),
  and `\uXXXX` escapes are decoded without surrogate-pair combining.
* `json_loads` is an executable recursive-descent decoder for that
  fragment, with the whole-document discipline of `json.loads`:
  leading and trailing JSON whitespace is permitted, any other
  trailing garbage makes the decode fail.
* `read_json` mirrors the function of the same name in the source:
  the first-non-whitespace-character detection loop, the array branch,
  the object branch with its JSONL fallback, and the line loop with
  strict and non-strict handling of malformed lines.
* `normalize_data` mirrors the function of the same name, with `pyStr`
  and `pyRepr` modelling the host-language default rendering `str`
  and `repr` on decoded JSON values (ASCII fragment).
* `pipeline` models the data path of `main`: parse, then normalize
  unconditionally, producing the record list handed to the writer.

The input stream is modelled as the decoded text of the file (after
universal-newline translation).  Error channels are modelled by
`Except` with an error type whose constructors correspond to the
`raise` sites of the source.
-/

/-- Decoded JSON values, as produced by the host JSON decoder.
Objects keep insertion order, like host-language dictionaries. -/
inductive JValue where
  | null : JValue
  | bool : Bool → JValue
  | num : Int → JValue
  | str : String → JValue
  | arr : List JValue → JValue
  | obj : List (String × JValue) → JValue
  deriving Repr

/-- Whitespace as tested by the host `str.isspace` (ASCII fragment):
space, tab, newline, carriage return, vertical tab, form feed. -/
def pyIsSpace (c : Char) : Bool :=
  c = ' ' || c = '\t' || c = '\n' || c = '\r' || c = '\x0b' || c = '\x0c'

/-- Whitespace skipped by the JSON decoder: space, tab, newline,
carriage return. -/
def jsonWs (c : Char) : Bool :=
  c = ' ' || c = '\t' || c = '\n' || c = '\r'

/-- Drop leading JSON whitespace. -/
def skipWs (cs : List Char) : List Char :=
  cs.dropWhile jsonWs

/-- The host `str.strip`: remove leading and trailing whitespace. -/
def pyStrip (s : String) : String :=
  ⟨((s.data.dropWhile pyIsSpace).reverse.dropWhile pyIsSpace).reverse⟩

/-- A line is blank when its stripped form is empty
(the `if not line.strip(): continue` test of the source). -/
def isBlankLine (l : String) : Bool :=
  (pyStrip l).isEmpty

/-- The first non-whitespace character of the stream, found by the
read-ahead loop at the top of `read_json`. -/
def firstNonWs (s : String) : Option Char :=
  (s.data.dropWhile pyIsSpace).head?

/-- The stream from the position of the first non-whitespace character
(the source seeks back to that position before calling `json.load`). -/
def wsRest (s : String) : String :=
  ⟨s.data.dropWhile pyIsSpace⟩

/-- Split a character list at each newline. -/
def splitNl : List Char → List (List Char)
  | [] => [[]]
  | c :: cs =>
    if c = '\n' then [] :: splitNl cs
    else
      match splitNl cs with
      | [] => [[c]]
      | l :: ls => (c :: l) :: ls

/-- The lines of the stream, as iterated by `for i, line in enumerate(f, 1)`.
Line terminators are dropped; a terminator is whitespace for both the
blank-line test and the per-line decode, so this is observationally
equivalent to the host iteration that keeps it.  A final terminator
yields one extra empty line, which is blank and therefore inert. -/
def pyLines (s : String) : List String :=
  (splitNl s.data).map fun l => ⟨l⟩

/-- Value of a simple escape character inside a JSON string literal. -/
def escChar (c : Char) : Option Char :=
  if c = '"' then some '"'
  else if c = '\\' then some '\\'
  else if c = '/' then some '/'
  else if c = 'b' then some '\x08'
  else if c = 'f' then some '\x0c'
  else if c = 'n' then some '\n'
  else if c = 'r' then some '\r'
  else if c = 't' then some '\t'
  else none

/-- Hexadecimal digit test. -/
def isHexDigit (c : Char) : Bool :=
  c.isDigit || ('a' ≤ c && c ≤ 'f') || ('A' ≤ c && c ≤ 'F')

/-- Numeric value of a hexadecimal digit. -/
def hexVal (c : Char) : Nat :=
  if c.isDigit then c.toNat - 48
  else if 'a' ≤ c ∧ c ≤ 'f' then c.toNat - 87
  else if 'A' ≤ c ∧ c ≤ 'F' then c.toNat - 55
  else 0

/-- Parse the body of a JSON string literal (the opening quote already
consumed), returning the decoded characters and the rest of the input.
Unescaped control characters are rejected, as the host decoder does. -/
def parseStringBody : List Char → Option (List Char × List Char)
  | [] => none
  | '"' :: rest => some ([], rest)
  | '\\' :: rest =>
    match rest with
    | [] => none
    | 'u' :: h1 :: h2 :: h3 :: h4 :: rest₂ =>
      if isHexDigit h1 && isHexDigit h2 && isHexDigit h3 && isHexDigit h4 then
        (parseStringBody rest₂).map fun p =>
          (Char.ofNat (((hexVal h1 * 16 + hexVal h2) * 16 + hexVal h3) * 16 + hexVal h4) :: p.1, p.2)
      else none
    | e :: rest₂ =>
      match escChar e with
      | some c => (parseStringBody rest₂).map fun p => (c :: p.1, p.2)
      | none => none
  | c :: rest =>
    if c.toNat < 32 then none
    else (parseStringBody rest).map fun p => (c :: p.1, p.2)

/-- Natural number denoted by a list of decimal digits. -/
def digitsToNat (ds : List Char) : Nat :=
  ds.foldl (fun a c => a * 10 + (c.toNat - 48)) 0

/-- Parse a JSON integer literal: optional minus sign, then decimal
digits with no leading zero. -/
def parseNumber (cs : List Char) : Option (JValue × List Char) :=
  let p := match cs with
    | '-' :: rest => (true, rest)
    | _ => (false, cs)
  match p.2.span Char.isDigit with
  | ([], _) => none
  | (d :: ds, rest) =>
    if d = '0' && !ds.isEmpty then none
    else
      let n : Int := digitsToNat (d :: ds)
      some (JValue.num (if p.1 then -n else n), rest)

/-- Check that a literal keyword is a prefix of the input and consume it. -/
def parseLit (lit : List Char) (v : JValue) (cs : List Char) : Option (JValue × List Char) :=
  if lit.isPrefixOf cs then some (v, cs.drop lit.length) else none

mutual

/-- Fuel-indexed recursive-descent parser for one JSON value, leading
whitespace permitted.  Returns the value and the unconsumed rest. -/
def parseValue : Nat → List Char → Option (JValue × List Char)
  | 0, _ => none
  | f + 1, cs =>
    match skipWs cs with
    | [] => none
    | c :: rest =>
      if c = '{' then
        match skipWs rest with
        | '}' :: rest₂ => some (JValue.obj [], rest₂)
        | _ => parseMembers f rest
      else if c = '[' then
        match skipWs rest with
        | ']' :: rest₂ => some (JValue.arr [], rest₂)
        | _ => parseElems f rest
      else if c = '"' then
        (parseStringBody rest).map fun p => (JValue.str ⟨p.1⟩, p.2)
      else if c = 't' then parseLit ['t', 'r', 'u', 'e'] (JValue.bool true) (c :: rest)
      else if c = 'f' then parseLit ['f', 'a', 'l', 's', 'e'] (JValue.bool false) (c :: rest)
      else if c = 'n' then parseLit ['n', 'u', 'l', 'l'] JValue.null (c :: rest)
      else if c = '-' || c.isDigit then parseNumber (c :: rest)
      else none

/-- Parse the members of a non-empty JSON object (the opening brace
already consumed), including the closing brace. -/
def parseMembers : Nat → List Char → Option (JValue × List Char)
  | 0, _ => none
  | f + 1, cs =>
    match skipWs cs with
    | '"' :: rest =>
      match parseStringBody rest with
      | none => none
      | some (k, rest₂) =>
        match skipWs rest₂ with
        | ':' :: rest₃ =>
          match parseValue f rest₃ with
          | none => none
          | some (v, rest₄) =>
            match skipWs rest₄ with
            | ',' :: rest₅ =>
              match parseMembers f rest₅ with
              | some (JValue.obj kvs, rest₆) => some (JValue.obj ((⟨k⟩, v) :: kvs), rest₆)
              | _ => none
            | '}' :: rest₅ => some (JValue.obj [(⟨k⟩, v)], rest₅)
            | _ => none
        | _ => none
    | _ => none

/-- Parse the elements of a non-empty JSON array (the opening bracket
already consumed), including the closing bracket. -/
def parseElems : Nat → List Char → Option (JValue × List Char)
  | 0, _ => none
  | f + 1, cs =>
    match parseValue f cs with
    | none => none
    | some (v, rest) =>
      match skipWs rest with
      | ',' :: rest₂ =>
        match parseElems f rest₂ with
        | some (JValue.arr vs, rest₃) => some (JValue.arr (v :: vs), rest₃)
        | _ => none
      | ']' :: rest₂ => some (JValue.arr [v], rest₂)
      | _ => none

end

/-- The host `json.loads`: decode the whole text as one JSON value,
allowing surrounding whitespace and nothing else. -/
def json_loads (s : String) : Option JValue :=
  match parseValue (2 * s.length + 4) s.data with
  | none => none
  | some (v, rest) => if skipWs rest = [] then some v else none

/-- The failure modes of `read_json`, one constructor per `raise` site.
`rootMustBeList` and `rootMustBeListOrObject` and `invalidInputShape`
are the three `ValueError` sites (the InvalidRootShapeError of the
design document); `jsonDecodeError` is a decode failure propagating
out of the array branch; `malformedLine` is the strict-mode failure on
a malformed line, carrying the reported diagnostics: the 1-based line
number and the stripped line content (the MalformedInputError of the
design document). -/
inductive ReadError where
  | jsonDecodeError : ReadError
  | rootMustBeList : ReadError
  | rootMustBeListOrObject : ReadError
  | invalidInputShape : ReadError
  | malformedLine : Nat → String → ReadError
  deriving Repr

/-- The JSONL fallback loop of `read_json`: lines are numbered from `i`,
blank lines are skipped, each other line is decoded; on a decode
failure, strict mode aborts with the line number and stripped content,
non-strict mode counts the line as skipped and continues. -/
def parseLinesAux (strict : Bool) : Nat → List String → Except ReadError (List JValue × Nat)
  | _, [] => Except.ok ([], 0)
  | i, l :: rest =>
    if isBlankLine l then parseLinesAux strict (i + 1) rest
    else
      match json_loads l with
      | some v => (parseLinesAux strict (i + 1) rest).map fun p => (v :: p.1, p.2)
      | none =>
        if strict then Except.error (ReadError.malformedLine i (pyStrip l))
        else (parseLinesAux strict (i + 1) rest).map fun p => (p.1, p.2 + 1)

/-- The `read_json` function of the source: find the first
non-whitespace character; empty stream yields an empty result; `[`
parses the whole stream as an array; `{` first tries the whole stream
as one JSON value and falls back to line-delimited parsing of the full
stream when that decode fails; anything else is an invalid shape. -/
def read_json (input : String) (strict : Bool) : Except ReadError (List JValue × Nat) :=
  match firstNonWs input with
  | none => Except.ok ([], 0)
  | some c =>
    if c = '[' then
      match json_loads (wsRest input) with
      | some (JValue.arr xs) => Except.ok (xs, 0)
      | some _ => Except.error ReadError.rootMustBeList
      | none => Except.error ReadError.jsonDecodeError
    else if c = '{' then
      match json_loads (wsRest input) with
      | some (JValue.obj kvs) => Except.ok ([JValue.obj kvs], 0)
      | some (JValue.arr xs) => Except.ok (xs, 0)
      | some _ => Except.error ReadError.rootMustBeListOrObject
      | none => parseLinesAux strict 1 (pyLines input)
    else
      Except.error ReadError.invalidInputShape

/-- One escaped character of the host string `repr`, given the chosen
quote character: backslash and the quote are escaped, newline, carriage
return and tab use their mnemonic escapes, other control characters use
a two-digit hexadecimal escape, everything else is verbatim
(ASCII fragment). -/
def pyEscChar (q : Char) (c : Char) : List Char :=
  if c = '\\' then ['\\', '\\']
  else if c = q then ['\\', q]
  else if c = '\n' then ['\\', 'n']
  else if c = '\r' then ['\\', 'r']
  else if c = '\t' then ['\\', 't']
  else if c.toNat < 32 || c.toNat = 127 then
    ['\\', 'x', Nat.digitChar (c.toNat / 16), Nat.digitChar (c.toNat % 16)]
  else [c]

/-- The host `repr` of a string: single quotes, unless the string
contains a single quote and no double quote. -/
def pyReprStr (s : String) : String :=
  let q : Char := if s.data.contains '\'' && !s.data.contains '"' then '"' else '\''
  ⟨q :: (s.data.map (pyEscChar q)).flatten ++ [q]⟩

mutual

/-- The host `repr` on decoded JSON values: `None`, `True`, `False`,
decimal integers, quoted strings, bracketed lists, braced
dictionaries with `repr`-rendered keys. -/
def pyRepr : JValue → String
  | JValue.null => "None"
  | JValue.bool true => "True"
  | JValue.bool false => "False"
  | JValue.num n => toString n
  | JValue.str s => pyReprStr s
  | JValue.arr xs => "[" ++ String.intercalate ", " (pyReprList xs) ++ "]"
  | JValue.obj kvs => "\x7b" ++ String.intercalate ", " (pyReprMembers kvs) ++ "\x7d"

/-- `repr` of each element of a list. -/
def pyReprList : List JValue → List String
  | [] => []
  | v :: vs => pyRepr v :: pyReprList vs

/-- `repr` of each key-value pair of a dictionary. -/
def pyReprMembers : List (String × JValue) → List String
  | [] => []
  | (k, v) :: kvs => (pyReprStr k ++ ": " ++ pyRepr v) :: pyReprMembers kvs

end

/-- The host `str` on decoded JSON values: a string is itself, every
other value renders as its `repr`. -/
def pyStr : JValue → String
  | JValue.str s => s
  | v => pyRepr v

/-- The `if v is None` test of `normalize_data`. -/
def isNull : JValue → Bool
  | JValue.null => true
  | _ => false

/-- A parsed record: a dictionary in insertion order. -/
abbrev Record := List (String × JValue)

/-- One row of `normalize_data`: keys kept, a `None` value kept as
`None`, every other value replaced by its `str` rendering. -/
def normalize_row (row : Record) : Record :=
  row.map fun kv => if isNull kv.2 then (kv.1, JValue.null) else (kv.1, JValue.str (pyStr kv.2))

/-- The `normalize_data` function of the source, applied row by row. -/
def normalize_data (data : List Record) : List Record :=
  data.map normalize_row

/-- View a decoded value as a dictionary; `row.items()` in the source
fails on anything else. -/
def asObj : JValue → Option Record
  | JValue.obj kvs => some kvs
  | _ => none

/-- The data path of `main`: parse the input, then unconditionally
normalize, yielding the record list handed to the table writer
together with the skipped-line count.  `none` models any failure of
the run (a parse error, or a parsed row that is not a dictionary). -/
def pipeline (input : String) (strict : Bool) : Option (List Record × Nat) :=
  match read_json input strict with
  | Except.error _ => none
  | Except.ok (data, k) =>
    match data.mapM asObj with
    | none => none
    | some rows => some (normalize_data rows, k)

/-- The decoded values of the parseable non-blank lines, in line order. -/
def goodLineValues (lines : List String) : List JValue :=
  lines.filterMap fun l => if isBlankLine l then none else json_loads l

/-- The number of non-blank lines that fail to decode. -/
def badLineCount (lines : List String) : Nat :=
  (lines.filter fun l => !isBlankLine l && (json_loads l).isNone).length

/-- The first non-blank line that fails to decode, with its 0-based
position among all lines. -/
def firstBad : List String → Option (Nat × String)
  | [] => none
  | l :: rest =>
    if !isBlankLine l && (json_loads l).isNone then some (0, l)
    else (firstBad rest).map fun p => (p.1 + 1, p.2)

theorem parseLinesAux_false_eq (lines : List String) :
    ∀ i, parseLinesAux false i lines = Except.ok (goodLineValues lines, badLineCount lines) := by
  induction lines with
  | nil => intro i; rfl
  | cons l rest ih =>
    intro i
    simp only [parseLinesAux, goodLineValues, badLineCount, List.filterMap_cons, List.filter_cons]
    cases hb : isBlankLine l with
    | true =>
      simpa only [hb, Bool.not_true, Bool.false_and, if_false, Bool.false_eq_true,
        goodLineValues, badLineCount] using ih (i + 1)
    | false =>
      cases hj : json_loads l with
      | some v =>
        simp only [hb, hj, Bool.not_false, Bool.true_and, Option.isNone_some,
          if_false, Bool.false_eq_true, ih (i + 1), Except.map, goodLineValues, badLineCount]
      | none =>
        simp only [hb, hj, Bool.not_false, Bool.true_and, Option.isNone_none,
          if_true, if_false, Bool.false_eq_true, ih (i + 1), Except.map,
          goodLineValues, badLineCount, List.length_cons]

theorem parseLinesAux_true_err (lines : List String) :
    ∀ i j l, firstBad lines = some (j, l) →
      parseLinesAux true i lines = Except.error (ReadError.malformedLine (i + j) (pyStrip l)) := by
  induction lines with
  | nil => intro i j l h; cases h
  | cons hd rest ih =>
    intro i j l h
    by_cases hb : isBlankLine hd = true
    · have hcond : (!isBlankLine hd && (json_loads hd).isNone) = false := by
        simp [hb]
      rw [firstBad, hcond] at h
      simp only [Bool.false_eq_true, if_false, Option.map_eq_some'] at h
      obtain ⟨p, hp, hpe⟩ := h
      have := ih (i + 1) p.1 p.2 (by rw [hp])
      rw [parseLinesAux, if_pos hb, this]
      have hj : j = p.1 + 1 := by
        have := congrArg Prod.fst hpe; simpa using this.symm
      have hl : l = p.2 := by
        have := congrArg Prod.snd hpe; simpa using this.symm
      subst hj hl
      rw [Nat.add_assoc, Nat.add_comm 1 p.1]
    · have hb' : isBlankLine hd = false := by
        cases hhb : isBlankLine hd with
        | true => exact absurd hhb hb
        | false => rfl
      cases hj : json_loads hd with
      | some v =>
        have hcond : (!isBlankLine hd && (json_loads hd).isNone) = false := by
          simp [hb', hj]
        rw [firstBad, hcond] at h
        simp only [Bool.false_eq_true, if_false, Option.map_eq_some'] at h
        obtain ⟨p, hp, hpe⟩ := h
        have hrec := ih (i + 1) p.1 p.2 (by rw [hp])
        rw [parseLinesAux, if_neg (by simp [hb']), hj, hrec]
        have hjj : j = p.1 + 1 := by
          have := congrArg Prod.fst hpe; simpa using this.symm
        have hl : l = p.2 := by
          have := congrArg Prod.snd hpe; simpa using this.symm
        subst hjj hl
        simp only [Except.map]
        rw [Nat.add_assoc, Nat.add_comm 1 p.1]
      | none =>
        have hcond : (!isBlankLine hd && (json_loads hd).isNone) = true := by
          simp [hb', hj]
        rw [firstBad, hcond] at h
        simp only [if_true, Option.some_inj] at h
        have hjj : j = 0 := by
          have := congrArg Prod.fst h; simpa using this.symm
        have hl : l = hd := by
          have := congrArg Prod.snd h; simpa using this.symm
        subst hjj hl
        rw [parseLinesAux, if_neg (by simp [hb']), hj]
        simp

theorem firstNonWs_eq_none_of_all_space (s : String)
    (h : s.data.all pyIsSpace = true) : firstNonWs s = none := by
  unfold firstNonWs
  have : s.data.dropWhile pyIsSpace = [] := by
    rw [List.dropWhile_eq_nil_iff]
    intro x hx
    exact List.all_eq_true.mp h x hx
  rw [this]; rfl

theorem pyStr_str (s : String) : pyStr (JValue.str s) = s := rfl

theorem normalize_row_idem (row : Record) :
    normalize_row (normalize_row row) = normalize_row row := by
  induction row with
  | nil => rfl
  | cons kv rest ih =>
    cases hn : isNull kv.2 with
    | true =>
      simp only [normalize_row, List.map_cons, hn, if_true] at *
      rw [ih]
      simp [isNull]
    | false =>
      simp only [normalize_row, List.map_cons, hn, Bool.false_eq_true, if_false] at *
      rw [ih]
      simp [isNull, pyStr_str]

theorem mem_normalize_row (row : Record) (kv : String × JValue)
    (h : kv ∈ normalize_row row) :
    kv.2 = JValue.null ∨ ∃ s, kv.2 = JValue.str s := by
  unfold normalize_row at h
  obtain ⟨kv₀, _, hkv⟩ := List.mem_map.mp h
  by_cases hn : isNull kv₀.2 = true
  · rw [if_pos hn] at hkv
    left; rw [← hkv]
  · rw [if_neg hn] at hkv
    right; exact ⟨pyStr kv₀.2, by rw [← hkv]⟩

/-- C1: when the first non-whitespace character of the stream is an
opening brace, whole-stream deserialization is attempted first: a
successful decode to a single object yields exactly that object as a
one-element sequence with zero skipped lines, and a failed whole-stream
decode makes the parse fall back to line-delimited parsing of the full
stream from its start, in either strict mode. -/
theorem read_json_object_first_then_lines (input : String) (strict : Bool)
    (h : firstNonWs input = some '{') :
    (∀ kvs, json_loads (wsRest input) = some (JValue.obj kvs) →
      read_json input strict = Except.ok ([JValue.obj kvs], 0)) ∧
    (json_loads (wsRest input) = none →
      read_json input strict = parseLinesAux strict 1 (pyLines input)) := by
  constructor
  · intro kvs hj
    simp [read_json, h, hj]
  · intro hj
    simp [read_json, h, hj]

theorem read_json_object_first_then_lines_witness :
    (firstNonWs " \x7b\"a\": 1\x7d" = some '{' ∧
      ((∀ kvs, json_loads (wsRest " \x7b\"a\": 1\x7d") = some (JValue.obj kvs) →
        read_json " \x7b\"a\": 1\x7d" false = Except.ok ([JValue.obj kvs], 0)) ∧
       (json_loads (wsRest " \x7b\"a\": 1\x7d") = none →
        read_json " \x7b\"a\": 1\x7d" false =
          parseLinesAux false 1 (pyLines " \x7b\"a\": 1\x7d")))) :=
  ⟨rfl, read_json_object_first_then_lines " \x7b\"a\": 1\x7d" false rfl⟩

/-- C4: when the first non-whitespace character of the stream is an
opening bracket, the whole stream is decoded as one JSON value and the
result is exactly the array branch: a decoded sequence is returned
verbatim, in index order, with zero skipped lines, for either strict
mode; a successful decode of any other shape fails with the
root-must-be-a-list error. -/
theorem read_json_array_branch (input : String) (strict : Bool)
    (h : firstNonWs input = some '[') :
    read_json input strict =
      (match json_loads (wsRest input) with
       | some (JValue.arr xs) => Except.ok (xs, 0)
       | some _ => Except.error ReadError.rootMustBeList
       | none => Except.error ReadError.jsonDecodeError) ∧
    (∀ xs, json_loads (wsRest input) = some (JValue.arr xs) →
      read_json input strict = Except.ok (xs, 0)) := by
  refine ⟨by simp [read_json, h], ?_⟩
  intro xs hj
  simp [read_json, h, hj]

theorem read_json_array_branch_witness :
    (firstNonWs " [1, 2]" = some '[' ∧
      (read_json " [1, 2]" true =
        (match json_loads (wsRest " [1, 2]") with
         | some (JValue.arr xs) => Except.ok (xs, 0)
         | some _ => Except.error ReadError.rootMustBeList
         | none => Except.error ReadError.jsonDecodeError) ∧
       (∀ xs, json_loads (wsRest " [1, 2]") = some (JValue.arr xs) →
         read_json " [1, 2]" true = Except.ok (xs, 0)))) :=
  ⟨rfl, read_json_array_branch " [1, 2]" true rfl⟩

/-- C5: when the first non-whitespace character of the stream is an
opening bracket but the stream does not decode as one JSON document,
the parse fails immediately with the propagated decode error for both
values of strict: no per-element recovery, no line-delimited
fallback. -/
theorem read_json_array_malformed_fatal (input : String)
    (h1 : firstNonWs input = some '[')
    (h2 : json_loads (wsRest input) = none) :
    ∀ strict, read_json input strict = Except.error ReadError.jsonDecodeError := by
  intro strict
  simp [read_json, h1, h2]

theorem read_json_array_malformed_fatal_witness :
    (firstNonWs "[1, 2" = some '[' ∧ json_loads (wsRest "[1, 2") = none ∧
      ∀ strict, read_json "[1, 2" strict = Except.error ReadError.jsonDecodeError) :=
  ⟨rfl, rfl, read_json_array_malformed_fatal "[1, 2" rfl rfl⟩

/-- C6: an input consisting only of whitespace characters, the
zero-length input included, parses to the empty sequence with zero
skipped lines and no error, for both values of strict. -/
theorem read_json_whitespace_empty (input : String)
    (h : input.data.all pyIsSpace = true) :
    (∀ strict, read_json input strict = Except.ok ([], 0)) ∧
    (∀ strict, read_json "" strict = Except.ok ([], 0)) := by
  refine ⟨?_, fun _ => rfl⟩
  intro strict
  simp [read_json, firstNonWs_eq_none_of_all_space input h]

theorem read_json_whitespace_empty_witness :
    (" \t\n ".data.all pyIsSpace = true ∧
      ((∀ strict, read_json " \t\n " strict = Except.ok ([], 0)) ∧
       (∀ strict, read_json "" strict = Except.ok ([], 0)))) :=
  ⟨rfl, read_json_whitespace_empty " \t\n " rfl⟩

/-- C2: a stream that reaches the line-delimited fallback (first
non-whitespace character an opening brace, whole-stream decode failed)
parses in non-strict mode to exactly the decoded values of the
parseable non-blank lines, in line order, with the skipped count equal
to the number of non-blank lines that fail to decode; blank or
whitespace-only lines contribute neither records nor skips. -/
theorem read_json_fallback_non_strict (input : String)
    (h1 : firstNonWs input = some '{')
    (h2 : json_loads (wsRest input) = none) :
    read_json input false =
      Except.ok (goodLineValues (pyLines input), badLineCount (pyLines input)) := by
  simp [read_json, h1, h2, parseLinesAux_false_eq]

theorem read_json_fallback_non_strict_witness :
    (firstNonWs "\x7b\"a\": 1\x7d\n\n  \nnot json\n\x7b\"b\": 2\x7d" = some '{' ∧
      json_loads (wsRest "\x7b\"a\": 1\x7d\n\n  \nnot json\n\x7b\"b\": 2\x7d") = none ∧
      read_json "\x7b\"a\": 1\x7d\n\n  \nnot json\n\x7b\"b\": 2\x7d" false =
        Except.ok (goodLineValues (pyLines "\x7b\"a\": 1\x7d\n\n  \nnot json\n\x7b\"b\": 2\x7d"),
          badLineCount (pyLines "\x7b\"a\": 1\x7d\n\n  \nnot json\n\x7b\"b\": 2\x7d")) ∧
      goodLineValues (pyLines "\x7b\"a\": 1\x7d\n\n  \nnot json\n\x7b\"b\": 2\x7d") =
        [JValue.obj [("a", JValue.num 1)], JValue.obj [("b", JValue.num 2)]] ∧
      badLineCount (pyLines "\x7b\"a\": 1\x7d\n\n  \nnot json\n\x7b\"b\": 2\x7d") = 1) :=
  ⟨rfl, rfl,
    read_json_fallback_non_strict "\x7b\"a\": 1\x7d\n\n  \nnot json\n\x7b\"b\": 2\x7d" rfl rfl,
    rfl, rfl⟩

/-- C3: a stream that reaches the line-delimited fallback and contains
a non-blank line that fails to decode aborts in strict mode at the
first such line, failing with the malformed-line error that reports
the 1-based line number and the stripped line content, and produces no
record sequence. -/
theorem read_json_fallback_strict_aborts (input : String) (j : Nat) (l : String)
    (h1 : firstNonWs input = some '{')
    (h2 : json_loads (wsRest input) = none)
    (h3 : firstBad (pyLines input) = some (j, l)) :
    read_json input true = Except.error (ReadError.malformedLine (j + 1) (pyStrip l)) ∧
    ∀ out, read_json input true ≠ Except.ok out := by
  have hmain : read_json input true =
      Except.error (ReadError.malformedLine (j + 1) (pyStrip l)) := by
    have := parseLinesAux_true_err (pyLines input) 1 j l h3
    rw [Nat.add_comm 1 j] at this
    simp [read_json, h1, h2, this]
  exact ⟨hmain, fun out hout => by rw [hmain] at hout; cases hout⟩

theorem read_json_fallback_strict_aborts_witness :
    (firstNonWs "\x7b\"a\": 1\x7d\nnot json\n\x7b\"b\": 2\x7d" = some '{' ∧
      json_loads (wsRest "\x7b\"a\": 1\x7d\nnot json\n\x7b\"b\": 2\x7d") = none ∧
      firstBad (pyLines "\x7b\"a\": 1\x7d\nnot json\n\x7b\"b\": 2\x7d") = some (1, "not json") ∧
      (read_json "\x7b\"a\": 1\x7d\nnot json\n\x7b\"b\": 2\x7d" true =
        Except.error (ReadError.malformedLine 2 (pyStrip "not json")) ∧
       ∀ out, read_json "\x7b\"a\": 1\x7d\nnot json\n\x7b\"b\": 2\x7d" true ≠ Except.ok out)) :=
  ⟨rfl, rfl, rfl,
    read_json_fallback_strict_aborts "\x7b\"a\": 1\x7d\nnot json\n\x7b\"b\": 2\x7d" 1 "not json"
      rfl rfl rfl⟩

theorem goodLineValues_nil_badLineCount_all
    (lines : List String)
    (h : lines.all (fun l => isBlankLine l || (json_loads l).isNone) = true) :
    goodLineValues lines = [] ∧
    badLineCount lines = (lines.filter fun l => !isBlankLine l).length := by
  induction lines with
  | nil => exact ⟨rfl, rfl⟩
  | cons l rest ih =>
    rw [List.all_cons, Bool.and_eq_true] at h
    obtain ⟨hl, hrest⟩ := h
    obtain ⟨ih1, ih2⟩ := ih hrest
    constructor
    · cases hb : isBlankLine l with
      | true => simpa [goodLineValues, hb] using ih1
      | false =>
        have hj : (json_loads l).isNone = true := by
          rw [hb] at hl; simpa using hl
        rw [Option.isNone_iff_eq_none] at hj
        simpa [goodLineValues, hb, hj] using ih1
    · cases hb : isBlankLine l with
      | true => simpa [badLineCount, List.filter_cons, hb] using ih2
      | false =>
        have hj : (json_loads l).isNone = true := by
          rw [hb] at hl; simpa using hl
        simpa [badLineCount, List.filter_cons, hb, hj] using ih2

/-- C9: a stream whose first non-whitespace character is an opening
brace, whose whole-stream decode fails, and whose every non-blank line
fails to decode, still succeeds in non-strict mode: the result is the
empty sequence with the skipped count equal to the number of non-blank
lines, and no error is raised — while a stream whose first
non-whitespace character is neither bracket nor brace fails with the
invalid-shape error. -/
theorem read_json_all_garbage_vs_bad_shape (input g : String) (c : Char)
    (h1 : firstNonWs input = some '{')
    (h2 : json_loads (wsRest input) = none)
    (h3 : (pyLines input).all (fun l => isBlankLine l || (json_loads l).isNone) = true)
    (g1 : firstNonWs g = some c) (g2 : c ≠ '[') (g3 : c ≠ '{') :
    read_json input false =
      Except.ok ([], ((pyLines input).filter fun l => !isBlankLine l).length) ∧
    read_json g false = Except.error ReadError.invalidInputShape := by
  obtain ⟨e1, e2⟩ := goodLineValues_nil_badLineCount_all (pyLines input) h3
  constructor
  · rw [show read_json input false =
        Except.ok (goodLineValues (pyLines input), badLineCount (pyLines input)) by
      simp [read_json, h1, h2, parseLinesAux_false_eq], e1, e2]
  · simp [read_json, g1, g2, g3]

theorem read_json_all_garbage_vs_bad_shape_witness :
    (firstNonWs "\x7bgarbage\n\ngar2" = some '{' ∧
      json_loads (wsRest "\x7bgarbage\n\ngar2") = none ∧
      (pyLines "\x7bgarbage\n\ngar2").all
        (fun l => isBlankLine l || (json_loads l).isNone) = true ∧
      firstNonWs "garbage" = some 'g' ∧ 'g' ≠ '[' ∧ 'g' ≠ '{' ∧
      (read_json "\x7bgarbage\n\ngar2" false =
        Except.ok ([], ((pyLines "\x7bgarbage\n\ngar2").filter fun l => !isBlankLine l).length) ∧
       read_json "garbage" false = Except.error ReadError.invalidInputShape) ∧
      ((pyLines "\x7bgarbage\n\ngar2").filter fun l => !isBlankLine l).length = 2) :=
  ⟨rfl, rfl, rfl, rfl, by decide, by decide,
    read_json_all_garbage_vs_bad_shape "\x7bgarbage\n\ngar2" "garbage" 'g'
      rfl rfl rfl rfl (by decide) (by decide), rfl⟩

/-- C7: normalization is a pure total function on record sequences:
the output has the same length, the row at every position is the
normalization of the input row at that position, a null field value
passes through unchanged, and normalizing twice equals normalizing
once. -/
theorem normalize_data_pure_idempotent (r : List Record) (row : Record) (k : String) (i : Nat) :
    (normalize_data r).length = r.length ∧
    (normalize_data r)[i]? = (r[i]?).map normalize_row ∧
    normalize_row ((k, JValue.null) :: row) = (k, JValue.null) :: normalize_row row ∧
    normalize_data (normalize_data r) = normalize_data r := by
  refine ⟨by simp [normalize_data], by simp [normalize_data], rfl, ?_⟩
  unfold normalize_data
  rw [List.map_map]
  congr 1
  funext x
  exact normalize_row_idem x

/-- C8: every successful run of the conversion pipeline normalizes
between parsing and writing, for every input and either strict mode,
so every record handed to the table writer has only null or string
field values. -/
theorem pipeline_records_null_or_string (input : String) (strict : Bool)
    (rows : List Record) (k : Nat)
    (h : pipeline input strict = some (rows, k)) :
    ∀ row ∈ rows, ∀ kv ∈ row, kv.2 = JValue.null ∨ ∃ s, kv.2 = JValue.str s := by
  intro row hrow kv hkv
  unfold pipeline at h
  split at h
  · cases h
  · split at h
    · cases h
    · rename_i rows₀ hm
      injection h with h'
      have hrows : normalize_data rows₀ = rows := congrArg Prod.fst h'
      rw [← hrows] at hrow
      obtain ⟨row₀, _, hr₀⟩ := List.mem_map.mp hrow
      rw [← hr₀] at hkv
      exact mem_normalize_row row₀ kv hkv

theorem pipeline_records_null_or_string_witness :
    (pipeline "\x7b\"a\": 1, \"b\": null\x7d" false =
      some ([[("a", JValue.str "1"), ("b", JValue.null)]], 0) ∧
      ∀ row ∈ [[("a", JValue.str "1"), ("b", JValue.null)]],
        ∀ kv ∈ row, kv.2 = JValue.null ∨ ∃ s, kv.2 = JValue.str s) :=
  ⟨rfl, pipeline_records_null_or_string "\x7b\"a\": 1, \"b\": null\x7d" false
    [[("a", JValue.str "1"), ("b", JValue.null)]] 0 rfl⟩

/-- C10: the rendering normalize applies to non-null values is the
host default string conversion, not JSON serialization: a true boolean
field renders as the string True and a false one as False, and nested
dictionaries and lists render in their host display form with
single-quoted keys, not as JSON text. -/
theorem normalize_renders_with_host_str (k : String) (row : Record) :
    normalize_row ((k, JValue.bool true) :: row) = (k, JValue.str "True") :: normalize_row row ∧
    normalize_row ((k, JValue.bool false) :: row) = (k, JValue.str "False") :: normalize_row row ∧
    pyReprStr "a" = ⟨['\'', 'a', '\'']⟩ ∧
    pyStr (JValue.obj [("a", JValue.num 1)]) = ⟨['\x7b', '\'', 'a', '\'', ':', ' ', '1', '\x7d']⟩ ∧
    pyStr (JValue.obj [("a", JValue.num 1)]) ≠ "\x7b\"a\": 1\x7d" ∧
    pyStr (JValue.arr [JValue.str "x", JValue.bool true, JValue.null]) =
      ⟨['[', '\'', 'x', '\'', ',', ' ', 'T', 'r', 'u', 'e', ',', ' ', 'N', 'o', 'n', 'e', ']']⟩ := by
  refine ⟨rfl, rfl, rfl, rfl, ?_, rfl⟩
  intro hcontra
  have : (⟨['\x7b', '\'', 'a', '\'', ':', ' ', '1', '\x7d']⟩ : String) = "\x7b\"a\": 1\x7d" := hcontra
  simp [String.ext_iff] at this
